import Mathlib

/-!
Shallow embedding of the metrics / eligibility engine of the pension-fund
dashboard (src/js/main.js) and proofs about the claims of its specification.

Modelling conventions:
* A JavaScript `Date` is represented by its primitive value, an integer number
  of milliseconds since the Unix epoch (`ℤ`).  Calendar operations
  (`getFullYear`, `setMonth`, the `new Date(y, 0, 1)` constructor) are modelled
  with the standard civil-calendar conversions, taking local time = UTC.
* JavaScript numbers are idealised as exact rationals (`ℚ`); the one place the
  code uses a transcendental operation (`Math.pow` with fractional exponent in
  `annualisedYearlyReturn`) is modelled over the reals (`ℝ`).
* `NaN` never appears inside field data (the JSON snapshot holds numbers or
  nulls, and `parseData` keeps nulls as null), so a nullable numeric field is
  an `Option ℚ` with `none` for null.  A computed value that can be `NaN`
  (for instance the result of `geometricCumulativeGrowth`) is an `Option`
  whose `none` is the not-a-number sentinel.
* `Array.prototype.sort` is modelled as a stable insertion sort driven by the
  sign of the comparator, with a comparator result of `NaN` treated as `+0`
  (tie), exactly as prescribed by the ECMAScript `SortCompare` operation.
-/

namespace PensionFundLt

/-- One parsed observation record, as produced by `parseData` in
src/js/main.js (fields `report_date`, `fund_type`, `company_short`,
`relative_change`, `number_of_participants`, `bik_pct`). -/
structure Obs where
  report_date : ℤ
  fund_type : String
  company_short : String
  relative_change : Option ℚ
  number_of_participants : Option ℚ
  bik_pct : Option ℚ
deriving DecidableEq

/-- Civil-calendar date (year, month 1..12, day 1..31) to days since
1970-01-01, by the standard Gregorian conversion.  The formula is affine in
`d`, so an out-of-range day-of-month rolls over to the adjacent months just as
the JavaScript `Date` normalisation does. -/
def daysFromCivil (y m d : ℤ) : ℤ :=
  let y2 := if m ≤ 2 then y - 1 else y
  let era := Int.fdiv y2 400
  let yoe := y2 - era * 400
  let mp := Int.emod (m + 9) 12
  let doy := (153 * mp + 2) / 5 + d - 1
  let doe := yoe * 365 + yoe / 4 - yoe / 100 + doy
  era * 146097 + doe - 719468

/-- Days since 1970-01-01 to a civil (year, month 1..12, day) triple; inverse
of `daysFromCivil`. -/
def civilFromDays (z : ℤ) : ℤ × ℤ × ℤ :=
  let z2 := z + 719468
  let era := Int.fdiv z2 146097
  let doe := z2 - era * 146097
  let yoe := (doe - doe / 1460 + doe / 36524 - doe / 146096) / 365
  let y := yoe + era * 400
  let doy := doe - (365 * yoe + yoe / 4 - yoe / 100)
  let mp := (5 * doy + 2) / 153
  let d := doy - (153 * mp + 2) / 5 + 1
  let m := if mp < 10 then mp + 3 else mp - 9
  (if m ≤ 2 then y + 1 else y, m, d)

/-- Milliseconds in one day. -/
def msPerDay : ℤ := 86400000

/-- The date value of `new Date(y, m - 1, d)` at midnight (month here is
1-based). -/
def msFromCivil (y m d : ℤ) : ℤ := daysFromCivil y m d * msPerDay

/-- The `getFullYear()` of a date value. -/
def yearOfMs (ms : ℤ) : ℤ := (civilFromDays (Int.fdiv ms msPerDay)).1

/-- Models `const base = new Date(end); base.setMonth(base.getMonth() - k)`:
the month is moved back by `k` with the day-of-month and time-of-day kept and
the usual `Date` normalisation applied. -/
def jsSetMonthMinus (ms k : ℤ) : ℤ :=
  let days := Int.fdiv ms msPerDay
  let rem := Int.emod ms msPerDay
  let c := civilFromDays days
  let m0 := c.2.1 - 1 - k
  let ty := c.1 + Int.fdiv m0 12
  let tm := Int.emod m0 12 + 1
  daysFromCivil ty tm c.2.2 * msPerDay + rem

/-- The value of `Math.max.apply(null, dates)` for a (nonempty) list of date
values; the `[]` case is junk (every caller guards nonemptiness). -/
def listMax : List ℤ → ℤ
  | [] => 0
  | h :: t => t.foldl max h

/-- The value of `Math.min.apply(null, dates)` for a (nonempty) list of date
values; the `[]` case is junk (every caller guards nonemptiness). -/
def listMin : List ℤ → ℤ
  | [] => 0
  | h :: t => t.foldl min h

/-- Models the regular-expression test `/^\d+$/.test(period)`. -/
def isDigits (s : String) : Bool := s.data.length != 0 && s.data.all (·.isDigit)

/-- Models `parseInt(period, 10)` on a string of decimal digits. -/
def natFromDigits (s : String) : ℕ :=
  s.data.foldl (fun n c => n * 10 + (c.toNat - 48)) 0

/-- `getYtdRange` of src/js/main.js: end is the latest report date, start is
January 1 of the same year. -/
def getYtdRange (data : List Obs) : Option ℤ × Option ℤ :=
  let dates := data.map (·.report_date)
  let e := listMax dates
  (some (msFromCivil (yearOfMs e) 1 1), some e)

/-- `getPreviousYearRange` of src/js/main.js: end is the latest report date;
dates strictly after end-minus-(months−1)-months are candidates; no candidate
means no valid range, otherwise start is the earliest candidate. -/
def getPreviousYearRange (data : List Obs) (months : ℕ) : Option ℤ × Option ℤ :=
  let dates := data.map (·.report_date)
  let e := listMax dates
  let base := jsSetMonthMinus e ((months : ℤ) - 1)
  let candidates := (data.filter (fun r => decide (base < r.report_date))).map (·.report_date)
  if candidates.isEmpty then (none, none)
  else (some (listMin candidates), some e)

/-- `getRange` of src/js/main.js.  The ALL branch reads the module-global
`rawData`, not its `data` argument, hence the extra first parameter. -/
def getRange (rawData data : List Obs) (period : String) : Option ℤ × Option ℤ :=
  if data.length = 0 then (none, none)
  else if period = "YTD" then getYtdRange data
  else if period = "ALL" then
    let allDates := rawData.map (·.report_date)
    (some (listMin allDates), some (listMax allDates))
  else if isDigits period then getPreviousYearRange data (natFromDigits period * 12)
  else (none, none)

/-- `geometricCumulativeGrowth` of src/js/main.js.  The input list holds the
nullable quarterly change values (`none` for a null, undefined or NaN entry,
which the source filter treats identically); `none` as result is the NaN
sentinel returned for an empty cleaned series.  Polymorphic over the number
field because the source function is applied both to raw data (modelled in ℚ)
and inside the real-valued annualised-return computation. -/
def geometricCumulativeGrowth {α : Type} [Field α] (series : List (Option α)) : Option α :=
  let clean := series.filterMap id
  if clean.length = 0 then none
  else
    let results := clean.map (fun v => v / 100)
    let p := results.foldl (fun acc x => acc * (1 + x)) 1
    some ((p - 1) * 100)

/-- `Math.round`: round half toward positive infinity. -/
def jsRound {α : Type} [LinearOrderedField α] [FloorRing α] (x : α) : ℤ :=
  ⌊x + 1 / 2⌋

/-- `Number.prototype.toFixed(d)`: sign of the argument first, then the
magnitude rounded half away from zero to `d` decimal places, zero-padded. -/
def toFixedStr {α : Type} [LinearOrderedField α] [FloorRing α] (d : ℕ) (x : α) : String :=
  let s := if x < 0 then "-" else ""
  let n := (⌊|x| * (10 : α) ^ d + 1 / 2⌋).toNat
  let ip := n / 10 ^ d
  let fp := n % 10 ^ d
  if d = 0 then s ++ toString ip
  else
    let fs := toString fp
    let pad := String.mk (List.replicate (d - fs.length) '0')
    s ++ toString ip ++ "." ++ pad ++ fs

/-- `fmtSigned` of src/js/main.js: `none` (null/NaN) renders as the fallback
message; otherwise round to `decimals` places, prefix a plus sign exactly when
the rounded value is strictly positive, and render with fixed decimals. -/
def fmtSigned {α : Type} [LinearOrderedField α] [FloorRing α]
    (val : Option α) (decimals : ℕ) (msgIfNaN : String) : String :=
  match val with
  | none => msgIfNaN
  | some v =>
    let factor : α := (10 : α) ^ decimals
    let rounded := ((jsRound (v * factor) : ℤ) : α) / factor
    let sign := if 0 < rounded then "+" else ""
    sign ++ toFixedStr decimals rounded

/-- `Math.pow` restricted to the shapes reachable from
`annualisedYearlyReturn`: nonnegative base behaves like the real power
function, a negative base yields a number only for an integer exponent
(`none` is the NaN result otherwise). -/
noncomputable def jsPow (x y : ℝ) : Option ℝ :=
  if 0 ≤ x then some (x ^ y)
  else
    haveI := Classical.propDecidable (∃ n : ℤ, (n : ℝ) = y)
    if ∃ n : ℤ, (n : ℝ) = y then some (x ^ y)
    else none

/-- `annualisedYearlyReturn` of src/js/main.js.  The `years ≤ 0` comparison is
taken in ℚ (the value is the exact `quarters / 4`, so this is the same test
the floating-point code performs). -/
noncomputable def annualisedYearlyReturn (series : List (Option ℝ)) : Option ℝ :=
  let clean := series.filterMap id
  let quarters := clean.length
  if quarters = 0 then none
  else
    let years : ℚ := (quarters : ℚ) / 4
    if years ≤ 0 then none
    else
      match geometricCumulativeGrowth (clean.map some) with
      | none => none
      | some totalGrowthPct =>
        let totalGrowth : ℝ := totalGrowthPct / 100
        (jsPow (1 + totalGrowth) (1 / ((years : ℝ)))).map (fun p => (p - 1) * 100)

/-- A JavaScript sort key: a finite number, one of the two infinities (used by
the participants and expense-ratio tables) or NaN. -/
inductive JVal (α : Type) where
  | nan : JVal α
  | ninf : JVal α
  | pinf : JVal α
  | num : α → JVal α
deriving DecidableEq

/-- JavaScript subtraction on sort keys (used only for its sign inside the
sort comparators): any NaN operand, or subtracting an infinity from itself,
gives NaN. -/
def jsub {α : Type} [Sub α] : JVal α → JVal α → JVal α
  | .nan, _ => .nan
  | _, .nan => .nan
  | .ninf, .ninf => .nan
  | .ninf, _ => .ninf
  | .pinf, .pinf => .nan
  | .pinf, _ => .pinf
  | .num _, .ninf => .pinf
  | .num _, .pinf => .ninf
  | .num a, .num b => .num (a - b)

/-- Whether a comparator result is strictly positive.  NaN is not positive:
the ECMAScript SortCompare operation turns a NaN comparator value into `+0`. -/
def jposB {α : Type} [Zero α] [LinearOrder α] : JVal α → Bool
  | .pinf => true
  | .num a => decide (0 < a)
  | _ => false

/-- Pack a nullable/NaN-able numeric value as a sort key. -/
def jvalOf {α : Type} (o : Option α) : JVal α :=
  match o with
  | none => .nan
  | some x => .num x

/-- Stable insertion step of the model of `Array.prototype.sort`: the new
element `x` (which originally precedes everything already inserted) moves past
`h` exactly when the comparator says `x` sorts strictly after `h`. -/
def jsInsert {α : Type} (gt : α → α → Bool) (x : α) : List α → List α
  | [] => [x]
  | h :: t => if gt x h then h :: jsInsert gt x t else x :: h :: t

/-- Model of `Array.prototype.sort(comparefn)`: a stable insertion sort driven
by `gt a b` = "the comparator on (a, b) is strictly positive". -/
def jsSortBy {α : Type} (gt : α → α → Bool) (l : List α) : List α :=
  l.foldr (jsInsert gt) []

/-- A row of one metric table before the `_sort` key is deleted: the manager
name, the displayed cells and the sort key. -/
structure KRow (κ γ : Type) where
  company : String
  cells : γ
  key : κ
deriving DecidableEq

/-- Comparator test for a descending table (`(a, b) => b._sort - a._sort`
strictly positive). -/
def gtDesc {α γ : Type} [Zero α] [LinearOrder α] [Sub α]
    (x h : KRow (JVal α) γ) : Bool :=
  jposB (jsub h.key x.key)

/-- Comparator test for an ascending table (`(a, b) => a._sort - b._sort`
strictly positive). -/
def gtAsc {α γ : Type} [Zero α] [LinearOrder α] [Sub α]
    (x h : KRow (JVal α) γ) : Bool :=
  jposB (jsub x.key h.key)

/-- Lexicographic comparison of strings by code unit, as the default
`Array.prototype.sort()` comparison performs it (written on the character
lists so that it evaluates by reduction). -/
def charListLe : List Char → List Char → Bool
  | [], _ => true
  | _ :: _, [] => false
  | a :: as, b :: bs =>
    if a.toNat < b.toNat then true
    else if b.toNat < a.toNat then false
    else charListLe as bs

/-- String comparison used by the default sort. -/
def strLeB (a b : String) : Bool := charListLe a.data b.data

/-- Stable insertion sort for the default string sort
`Array.from(set).sort()` (all sorted elements are distinct there, so any
correct sort gives this result). -/
def insertStr (s : String) : List String → List String
  | [] => [s]
  | h :: t => if strLeB s h then s :: h :: t else h :: insertStr s t

/-- The sorted list of a list of strings. -/
def sortStr (l : List String) : List String := l.foldr insertStr []

/-- The fund-type filtered dataset `fundData` of `renderTables`. -/
def fundDataOf (rawData : List Obs) (ft : String) : List Obs :=
  rawData.filter (fun r => r.fund_type == ft)

/-- The deduplicated, sorted manager list `companies` of `renderTables`. -/
def companiesOf (rawData : List Obs) (ft : String) : List String :=
  sortStr (((fundDataOf rawData ft).map (·.company_short)).dedup)

/-- A single manager's rows over its whole available history under the
current fund type. -/
def historyRowsOf (rawData : List Obs) (ft c : String) : List Obs :=
  (fundDataOf rawData ft).filter (fun r => r.company_short == c)

/-- The coverage `coverageYears[c]` of `renderTables`: span of the manager's
history in days divided by 365.25. -/
def coverageYearsOf (rawData : List Obs) (ft c : String) : ℚ :=
  let dates := (historyRowsOf rawData ft c).map (·.report_date)
  let days : ℚ := ((listMax dates - listMin dates : ℤ) : ℚ) / 86400000
  days / 365.25

/-- The `baseData` of `renderTables`: the whole dataset for ALL, the
fund-type filtered data otherwise. -/
def baseDataOf (rawData : List Obs) (ft period : String) : List Obs :=
  if period = "ALL" then rawData else fundDataOf rawData ft

/-- The resolved `[start, end]` interval of `renderTables`. -/
def rangeOf (rawData : List Obs) (ft period : String) : Option ℤ × Option ℤ :=
  getRange rawData (baseDataOf rawData ft period) period

/-- The `requestedYears` of `renderTables`: the parsed digit period, replaced
for ALL (when the interval resolved) by the resolved interval's span in
years; null (no coverage requirement) otherwise. -/
def requestedYearsOf (rawData : List Obs) (ft period : String) : Option ℚ :=
  let base := if isDigits period then some ((natFromDigits period : ℕ) : ℚ) else none
  if period = "ALL" then
    match getRange rawData rawData "ALL" with
    | (some s, some e) => some ((((e - s : ℤ) : ℚ) / 86400000) / 365.25)
    | _ => base
  else base

/-- The `rangeData` of `renderTables`.  A null interval end behaves as the
number 0 in the date comparison, exactly as the JavaScript coercion does. -/
def rangeDataOf (rawData : List Obs) (ft period : String) : List Obs :=
  let se := rangeOf rawData ft period
  (fundDataOf rawData ft).filter
    (fun r => decide (se.1.getD 0 ≤ r.report_date) && decide (r.report_date ≤ se.2.getD 0))

/-- One manager's observations inside the resolved window (`grpRange`). -/
def grpRangeOf (rawData : List Obs) (ft period c : String) : List Obs :=
  (rangeDataOf rawData ft period).filter (fun r => r.company_short == c)

/-- The `hasEnoughHistory` test of `renderTables` (with `coverageYears[c] ||
0.0` simplified away: the coverage of a listed manager is never undefined,
and `0 || 0.0` is `0`). -/
def hasEnoughHistoryOf (rawData : List Obs) (ft period c : String) : Bool :=
  match requestedYearsOf rawData ft period with
  | none => true
  | some ry => decide (ry ≤ coverageYearsOf rawData ft c + 1 / 1000000)

/-- Whether a manager takes the numeric branch of `renderTables` (the
negation of `!grpRange.length || !hasEnoughHistory`). -/
def isEligibleOf (rawData : List Obs) (ft period c : String) : Bool :=
  !(grpRangeOf rawData ft period c).isEmpty && hasEnoughHistoryOf rawData ft period c

/-- The manager's window observations sorted ascending by report date
(`grpRange.slice().sort((a, b) => a.report_date - b.report_date)`). -/
def sortedObsOf (rawData : List Obs) (ft period c : String) : List Obs :=
  jsSortBy (fun x h => decide (h.report_date < x.report_date))
    (grpRangeOf rawData ft period c)

/-- The `relChanges` array: nullable quarterly changes in date order. -/
def relChangesOf (rawData : List Obs) (ft period c : String) : List (Option ℚ) :=
  (sortedObsOf rawData ft period c).map (·.relative_change)

/-- The `growthVal` of a manager (NaN as `none`). -/
def growthValOf (rawData : List Obs) (ft period c : String) : Option ℚ :=
  geometricCumulativeGrowth (relChangesOf rawData ft period c)

/-- The `avgVal` of a manager; the same `relChanges` array is passed to
`annualisedYearlyReturn`, here through the cast into ℝ. -/
noncomputable def avgValOf (rawData : List Obs) (ft period c : String) : Option ℝ :=
  annualisedYearlyReturn ((relChangesOf rawData ft period c).map (Option.map (fun q => ((q : ℚ) : ℝ))))

/-- The `worstVal = Math.min.apply(null, relChanges)` of a manager: JavaScript
coerces a null entry to the number 0 before taking the minimum.  The empty
case is junk: the caller is the eligible branch, where `grpRange` is
nonempty. -/
def worstValOf (rawData : List Obs) (ft period c : String) : ℚ :=
  match (relChangesOf rawData ft period c).map (fun o => o.getD 0) with
  | [] => 0
  | h :: t => t.foldl min h

/-- The `bestVal = Math.max.apply(null, relChanges)` of a manager, with the
same null-to-0 coercion. -/
def bestValOf (rawData : List Obs) (ft period c : String) : ℚ :=
  match (relChangesOf rawData ft period c).map (fun o => o.getD 0) with
  | [] => 0
  | h :: t => t.foldl max h

/-- The participants columns and sort key of an eligible manager: first/last
participant count by date; a missing one gives the fund-did-not-exist message
twice and a sort key of negative infinity, otherwise the rounded latest
count, the signed rounded change and the rounded latest count as key. -/
def participantsOf (rawData : List Obs) (ft period c msgFNE : String) :
    String × String × JVal ℚ :=
  match sortedObsOf rawData ft period c with
  | [] => (msgFNE, msgFNE, JVal.ninf)
  | h :: t =>
    let firstPart := h.number_of_participants
    let lastPart := ((h :: t).getLast (List.cons_ne_nil h t)).number_of_participants
    match firstPart, lastPart with
    | some f, some lp =>
      let latest := jsRound lp
      let diff := jsRound (lp - f)
      (toString latest,
       if 0 ≤ diff then "+" ++ toString diff else toString diff,
       JVal.num (latest : ℚ))
    | _, _ => (msgFNE, msgFNE, JVal.ninf)

/-- The expense-ratio column and sort key of an eligible manager: last (by
date) `bik_pct`; missing gives the no-data message and a key of positive
infinity, otherwise three fixed decimals and the raw value as key. -/
def bikOf (rawData : List Obs) (ft period c msgND : String) : String × JVal ℚ :=
  match sortedObsOf rawData ft period c with
  | [] => (msgND, JVal.pinf)
  | h :: t =>
    match ((h :: t).getLast (List.cons_ne_nil h t)).bik_pct with
    | none => (msgND, JVal.pinf)
    | some b => (toFixedStr 3 b, JVal.num b)

/-- The `growthNumeric` list: one keyed row per eligible manager, in
manager-list order. -/
def growthNumericOf (rawData : List Obs) (ft period msgFNE : String) :
    List (KRow (JVal ℚ) String) :=
  ((companiesOf rawData ft).filter (fun c => isEligibleOf rawData ft period c)).map
    (fun c =>
      ⟨c, fmtSigned (growthValOf rawData ft period c) 2 msgFNE,
        jvalOf (growthValOf rawData ft period c)⟩)

/-- The `growthNoData` list: one placeholder row per ineligible manager. -/
def growthNoDataOf (rawData : List Obs) (ft period msgFNE : String) :
    List (String × String) :=
  ((companiesOf rawData ft).filter (fun c => !isEligibleOf rawData ft period c)).map
    (fun c => (c, msgFNE))

/-- The sorted `growthNumeric` list (descending by key). -/
def growthSortedOf (rawData : List Obs) (ft period msgFNE : String) :
    List (KRow (JVal ℚ) String) :=
  jsSortBy gtDesc (growthNumericOf rawData ft period msgFNE)

/-- The final growth table: sorted numeric rows (keys deleted) then the
placeholder rows. -/
def growthRowsOf (rawData : List Obs) (ft period msgFNE : String) :
    List (String × String) :=
  (growthSortedOf rawData ft period msgFNE).map (fun r => (r.company, r.cells))
    ++ growthNoDataOf rawData ft period msgFNE

/-- The `avgNumeric` list (annualised return), with real-valued keys. -/
noncomputable def avgNumericOf (rawData : List Obs) (ft period msgFNE : String) :
    List (KRow (JVal ℝ) String) :=
  ((companiesOf rawData ft).filter (fun c => isEligibleOf rawData ft period c)).map
    (fun c =>
      ⟨c, fmtSigned (avgValOf rawData ft period c) 2 msgFNE,
        jvalOf (avgValOf rawData ft period c)⟩)

/-- The `avgNoData` list. -/
def avgNoDataOf (rawData : List Obs) (ft period msgFNE : String) :
    List (String × String) :=
  ((companiesOf rawData ft).filter (fun c => !isEligibleOf rawData ft period c)).map
    (fun c => (c, msgFNE))

/-- The sorted `avgNumeric` list (descending by key). -/
noncomputable def avgSortedOf (rawData : List Obs) (ft period msgFNE : String) :
    List (KRow (JVal ℝ) String) :=
  jsSortBy gtDesc (avgNumericOf rawData ft period msgFNE)

/-- The final annualised-return table. -/
noncomputable def avgRowsOf (rawData : List Obs) (ft period msgFNE : String) :
    List (String × String) :=
  (avgSortedOf rawData ft period msgFNE).map (fun r => (r.company, r.cells))
    ++ avgNoDataOf rawData ft period msgFNE

/-- The `extremesNumeric` list: worst/best cells, keyed by the worst value. -/
def extremesNumericOf (rawData : List Obs) (ft period msgFNE : String) :
    List (KRow (JVal ℚ) (String × String)) :=
  ((companiesOf rawData ft).filter (fun c => isEligibleOf rawData ft period c)).map
    (fun c =>
      ⟨c, (fmtSigned (some (worstValOf rawData ft period c)) 2 msgFNE,
           fmtSigned (some (bestValOf rawData ft period c)) 2 msgFNE),
        JVal.num (worstValOf rawData ft period c)⟩)

/-- The `extremesNoData` list. -/
def extremesNoDataOf (rawData : List Obs) (ft period msgFNE : String) :
    List (String × String × String) :=
  ((companiesOf rawData ft).filter (fun c => !isEligibleOf rawData ft period c)).map
    (fun c => (c, msgFNE, msgFNE))

/-- The sorted `extremesNumeric` list (ascending by worst value). -/
def extremesSortedOf (rawData : List Obs) (ft period msgFNE : String) :
    List (KRow (JVal ℚ) (String × String)) :=
  jsSortBy gtAsc (extremesNumericOf rawData ft period msgFNE)

/-- The final extremes table. -/
def extremesRowsOf (rawData : List Obs) (ft period msgFNE : String) :
    List (String × String × String) :=
  (extremesSortedOf rawData ft period msgFNE).map
    (fun r => (r.company, r.cells.1, r.cells.2))
    ++ extremesNoDataOf rawData ft period msgFNE

/-- The `participantsNumeric` list. -/
def participantsNumericOf (rawData : List Obs) (ft period msgFNE : String) :
    List (KRow (JVal ℚ) (String × String)) :=
  ((companiesOf rawData ft).filter (fun c => isEligibleOf rawData ft period c)).map
    (fun c =>
      ⟨c, ((participantsOf rawData ft period c msgFNE).1,
           (participantsOf rawData ft period c msgFNE).2.1),
        (participantsOf rawData ft period c msgFNE).2.2⟩)

/-- The `participantsNoData` list. -/
def participantsNoDataOf (rawData : List Obs) (ft period msgFNE : String) :
    List (String × String × String) :=
  ((companiesOf rawData ft).filter (fun c => !isEligibleOf rawData ft period c)).map
    (fun c => (c, msgFNE, msgFNE))

/-- The sorted `participantsNumeric` list (descending by latest count). -/
def participantsSortedOf (rawData : List Obs) (ft period msgFNE : String) :
    List (KRow (JVal ℚ) (String × String)) :=
  jsSortBy gtDesc (participantsNumericOf rawData ft period msgFNE)

/-- The final participants table. -/
def participantsRowsOf (rawData : List Obs) (ft period msgFNE : String) :
    List (String × String × String) :=
  (participantsSortedOf rawData ft period msgFNE).map
    (fun r => (r.company, r.cells.1, r.cells.2))
    ++ participantsNoDataOf rawData ft period msgFNE

/-- The `bikNumeric` list (expense ratios). -/
def bikNumericOf (rawData : List Obs) (ft period msgND : String) :
    List (KRow (JVal ℚ) String) :=
  ((companiesOf rawData ft).filter (fun c => isEligibleOf rawData ft period c)).map
    (fun c =>
      ⟨c, (bikOf rawData ft period c msgND).1, (bikOf rawData ft period c msgND).2⟩)

/-- The `bikNoData` list: ineligible managers get the fund-did-not-exist
placeholder (the no-data message is only for an eligible manager with a
missing last value). -/
def bikNoDataOf (rawData : List Obs) (ft period msgFNE : String) :
    List (String × String) :=
  ((companiesOf rawData ft).filter (fun c => !isEligibleOf rawData ft period c)).map
    (fun c => (c, msgFNE))

/-- The sorted `bikNumeric` list (ascending, missing values last). -/
def bikSortedOf (rawData : List Obs) (ft period msgND : String) :
    List (KRow (JVal ℚ) String) :=
  jsSortBy gtAsc (bikNumericOf rawData ft period msgND)

/-- The final expense-ratio table. -/
def bikRowsOf (rawData : List Obs) (ft period msgFNE msgND : String) :
    List (String × String) :=
  (bikSortedOf rawData ft period msgND).map (fun r => (r.company, r.cells))
    ++ bikNoDataOf rawData ft period msgFNE

/-! ### General lemmas about the embedded building blocks -/

lemma foldl_mul_one_add {α : Type} [Field α] (l : List α) (a : α) :
    l.foldl (fun acc x => acc * (1 + x)) a = a * (l.map (fun x => 1 + x)).prod := by
  induction l generalizing a with
  | nil => simp
  | cons h t ih => simp [ih, mul_assoc]

lemma foldl_max_mem {α : Type} [LinearOrder α] (t : List α) (a : α) :
    t.foldl max a = a ∨ t.foldl max a ∈ t := by
  induction t generalizing a with
  | nil => simp
  | cons h t ih =>
    rcases ih (max a h) with hc | hc
    · rcases max_choice a h with hm | hm
      · exact Or.inl (by rw [List.foldl_cons, hc, hm])
      · exact Or.inr (by rw [List.foldl_cons, hc, hm]; exact List.mem_cons_self h t)
    · exact Or.inr (List.mem_cons_of_mem h hc)

lemma le_foldl_max {α : Type} [LinearOrder α] (t : List α) (a : α) :
    a ≤ t.foldl max a ∧ ∀ x ∈ t, x ≤ t.foldl max a := by
  induction t generalizing a with
  | nil => simp
  | cons h t ih =>
    obtain ⟨h1, h2⟩ := ih (max a h)
    refine ⟨le_trans (le_max_left a h) h1, ?_⟩
    intro x hx
    rcases List.mem_cons.mp hx with rfl | hx
    · exact le_trans (le_max_right a x) h1
    · exact h2 x hx

lemma foldl_min_mem {α : Type} [LinearOrder α] (t : List α) (a : α) :
    t.foldl min a = a ∨ t.foldl min a ∈ t := by
  induction t generalizing a with
  | nil => simp
  | cons h t ih =>
    rcases ih (min a h) with hc | hc
    · rcases min_choice a h with hm | hm
      · exact Or.inl (by rw [List.foldl_cons, hc, hm])
      · exact Or.inr (by rw [List.foldl_cons, hc, hm]; exact List.mem_cons_self h t)
    · exact Or.inr (List.mem_cons_of_mem h hc)

lemma foldl_min_le {α : Type} [LinearOrder α] (t : List α) (a : α) :
    t.foldl min a ≤ a ∧ ∀ x ∈ t, t.foldl min a ≤ x := by
  induction t generalizing a with
  | nil => simp
  | cons h t ih =>
    obtain ⟨h1, h2⟩ := ih (min a h)
    refine ⟨le_trans h1 (min_le_left a h), ?_⟩
    intro x hx
    rcases List.mem_cons.mp hx with rfl | hx
    · exact le_trans h1 (min_le_right a x)
    · exact h2 x hx

lemma foldl_min_cons_mem {α : Type} [LinearOrder α] (h : α) (t : List α) :
    t.foldl min h ∈ h :: t := by
  rcases foldl_min_mem t h with hc | hc
  · rw [hc]
    exact List.mem_cons_self h t
  · exact List.mem_cons_of_mem h hc

lemma foldl_min_cons_le {α : Type} [LinearOrder α] (h : α) (t : List α) :
    ∀ x ∈ h :: t, t.foldl min h ≤ x := by
  intro x hx
  rcases List.mem_cons.mp hx with rfl | hx
  · exact (foldl_min_le t x).1
  · exact (foldl_min_le t h).2 x hx

lemma foldl_max_cons_mem {α : Type} [LinearOrder α] (h : α) (t : List α) :
    t.foldl max h ∈ h :: t := by
  rcases foldl_max_mem t h with hc | hc
  · rw [hc]
    exact List.mem_cons_self h t
  · exact List.mem_cons_of_mem h hc

lemma foldl_max_cons_le {α : Type} [LinearOrder α] (h : α) (t : List α) :
    ∀ x ∈ h :: t, x ≤ t.foldl max h := by
  intro x hx
  rcases List.mem_cons.mp hx with rfl | hx
  · exact (le_foldl_max t x).1
  · exact (le_foldl_max t h).2 x hx

lemma listMax_mem (h : ℤ) (t : List ℤ) : listMax (h :: t) ∈ h :: t := by
  rcases foldl_max_mem t h with hc | hc
  · rw [listMax, hc]; exact List.mem_cons_self h t
  · exact List.mem_cons_of_mem h hc

lemma le_listMax (h : ℤ) (t : List ℤ) : ∀ x ∈ h :: t, x ≤ listMax (h :: t) := by
  intro x hx
  rcases List.mem_cons.mp hx with rfl | hx
  · exact (le_foldl_max t x).1
  · exact (le_foldl_max t h).2 x hx

lemma listMin_mem (h : ℤ) (t : List ℤ) : listMin (h :: t) ∈ h :: t := by
  rcases foldl_min_mem t h with hc | hc
  · rw [listMin, hc]; exact List.mem_cons_self h t
  · exact List.mem_cons_of_mem h hc

lemma listMin_le (h : ℤ) (t : List ℤ) : ∀ x ∈ h :: t, listMin (h :: t) ≤ x := by
  intro x hx
  rcases List.mem_cons.mp hx with rfl | hx
  · exact (foldl_min_le t x).1
  · exact (foldl_min_le t h).2 x hx

lemma jsInsert_perm {α : Type} (gt : α → α → Bool) (x : α) (l : List α) :
    (jsInsert gt x l).Perm (x :: l) := by
  induction l with
  | nil => exact List.Perm.refl _
  | cons h t ih =>
    rw [jsInsert]
    by_cases hgt : gt x h
    · rw [if_pos hgt]
      exact (ih.cons h).trans (List.Perm.swap x h t)
    · rw [if_neg hgt]

lemma jsSortBy_perm {α : Type} (gt : α → α → Bool) (l : List α) :
    (jsSortBy gt l).Perm l := by
  induction l with
  | nil => exact List.Perm.refl _
  | cons h t ih => exact (jsInsert_perm gt h (jsSortBy gt t)).trans (ih.cons h)

lemma jsInsert_pairwise {α : Type} (gt : α → α → Bool) (P : α → Prop)
    (hasym : ∀ a b, P a → P b → gt a b = true → gt b a = false)
    (htrans : ∀ a b c, P a → P b → P c →
      gt a b = false → gt b c = false → gt a c = false)
    (x : α) (l : List α) (hPx : P x) (hPl : ∀ a ∈ l, P a)
    (hl : l.Pairwise (fun a b => gt a b = false)) :
    (jsInsert gt x l).Pairwise (fun a b => gt a b = false) := by
  induction l with
  | nil => simp [jsInsert]
  | cons h t ih =>
    have hPh : P h := hPl h (List.mem_cons_self h t)
    have hPt : ∀ a ∈ t, P a := fun a ha => hPl a (List.mem_cons_of_mem h ha)
    obtain ⟨hhb, ht⟩ := List.pairwise_cons.mp hl
    rw [jsInsert]
    by_cases hgt : gt x h
    · rw [if_pos hgt]
      refine List.pairwise_cons.mpr ⟨?_, ih hPt ht⟩
      intro b hb
      rcases List.mem_cons.mp ((jsInsert_perm gt x t).mem_iff.mp hb) with rfl | hb
      · exact hasym b h hPx hPh hgt
      · exact hhb b hb
    · rw [if_neg hgt]
      have hxh : gt x h = false := Bool.not_eq_true _ ▸ eq_false_of_ne_true hgt
      refine List.pairwise_cons.mpr ⟨?_, hl⟩
      intro b hb
      rcases List.mem_cons.mp hb with rfl | hb
      · exact hxh
      · exact htrans x h b hPx hPh (hPt b hb) hxh (hhb b hb)

lemma jsSortBy_pairwise {α : Type} (gt : α → α → Bool) (P : α → Prop)
    (hasym : ∀ a b, P a → P b → gt a b = true → gt b a = false)
    (htrans : ∀ a b c, P a → P b → P c →
      gt a b = false → gt b c = false → gt a c = false)
    (l : List α) (hPl : ∀ a ∈ l, P a) :
    (jsSortBy gt l).Pairwise (fun a b => gt a b = false) := by
  induction l with
  | nil => simp [jsSortBy]
  | cons h t ih =>
    have hPh : P h := hPl h (List.mem_cons_self h t)
    have hPt : ∀ a ∈ t, P a := fun a ha => hPl a (List.mem_cons_of_mem h ha)
    have hPs : ∀ a ∈ jsSortBy gt t, P a :=
      fun a ha => hPt a ((jsSortBy_perm gt t).mem_iff.mp ha)
    exact jsInsert_pairwise gt P hasym htrans h (jsSortBy gt t) hPh hPs (ih hPt)

lemma gtDesc_asym {α γ : Type} [LinearOrderedField α] (x h : KRow (JVal α) γ)
    (hx : x.key ≠ JVal.nan) (hh : h.key ≠ JVal.nan) :
    gtDesc x h = true → gtDesc h x = false := by
  rcases hkx : x.key with _ | _ | _ | a <;> rcases hkh : h.key with _ | _ | _ | b <;>
    simp_all [gtDesc, jsub, jposB] <;> (intros; linarith)

lemma gtDesc_trans {α γ : Type} [LinearOrderedField α] (x y z : KRow (JVal α) γ)
    (hx : x.key ≠ JVal.nan) (hy : y.key ≠ JVal.nan) (hz : z.key ≠ JVal.nan) :
    gtDesc x y = false → gtDesc y z = false → gtDesc x z = false := by
  rcases hkx : x.key with _ | _ | _ | a <;> rcases hky : y.key with _ | _ | _ | b <;>
    rcases hkz : z.key with _ | _ | _ | c <;>
    simp_all [gtDesc, jsub, jposB] <;> (intros; linarith)

lemma gtAsc_asym {α γ : Type} [LinearOrderedField α] (x h : KRow (JVal α) γ)
    (hx : x.key ≠ JVal.nan) (hh : h.key ≠ JVal.nan) :
    gtAsc x h = true → gtAsc h x = false := by
  rcases hkx : x.key with _ | _ | _ | a <;> rcases hkh : h.key with _ | _ | _ | b <;>
    simp_all [gtAsc, jsub, jposB] <;> (intros; linarith)

lemma gtAsc_trans {α γ : Type} [LinearOrderedField α] (x y z : KRow (JVal α) γ)
    (hx : x.key ≠ JVal.nan) (hy : y.key ≠ JVal.nan) (hz : z.key ≠ JVal.nan) :
    gtAsc x y = false → gtAsc y z = false → gtAsc x z = false := by
  rcases hkx : x.key with _ | _ | _ | a <;> rcases hky : y.key with _ | _ | _ | b <;>
    rcases hkz : z.key with _ | _ | _ | c <;>
    simp_all [gtAsc, jsub, jposB] <;> (intros; linarith)

lemma insertStr_perm (s : String) (l : List String) :
    (insertStr s l).Perm (s :: l) := by
  induction l with
  | cons h t ih =>
    rw [insertStr]
    by_cases hle : strLeB s h
    · rw [if_pos hle]
    · rw [if_neg hle]
      exact (ih.cons h).trans (List.Perm.swap s h t)
  | nil => exact List.Perm.refl _

lemma mem_sortStr (l : List String) (s : String) : s ∈ sortStr l ↔ s ∈ l := by
  induction l with
  | nil => simp [sortStr]
  | cons h t ih =>
    rw [sortStr, List.foldr_cons]
    rw [(insertStr_perm h _).mem_iff]
    simp only [List.mem_cons]
    rw [show (List.foldr insertStr [] t) = sortStr t from rfl, ih]

lemma mem_companiesOf (rawData : List Obs) (ft c : String) :
    c ∈ companiesOf rawData ft ↔ c ∈ (fundDataOf rawData ft).map (·.company_short) := by
  rw [companiesOf, mem_sortStr, List.mem_dedup]

lemma historyRowsOf_ne_nil (rawData : List Obs) (ft c : String)
    (h : c ∈ companiesOf rawData ft) : historyRowsOf rawData ft c ≠ [] := by
  rw [mem_companiesOf] at h
  obtain ⟨r, hr, hrc⟩ := List.mem_map.mp h
  have : r ∈ historyRowsOf rawData ft c := by
    rw [historyRowsOf, List.mem_filter]
    exact ⟨hr, by simp [hrc]⟩
  exact List.ne_nil_of_mem this

lemma mem_growthNumericOf (rawData : List Obs) (ft period msgFNE c : String) :
    c ∈ (growthNumericOf rawData ft period msgFNE).map KRow.company ↔
      c ∈ companiesOf rawData ft ∧ isEligibleOf rawData ft period c = true := by
  simp [growthNumericOf, List.mem_map, List.mem_filter]

lemma jsPow_of_nonneg (x y : ℝ) (h : 0 ≤ x) : jsPow x y = some (x ^ y) := by
  rw [jsPow, if_pos h]

lemma jsPow_neg_int (x y : ℝ) (hx : ¬ 0 ≤ x) (n : ℤ) (hn : (n : ℝ) = y) :
    jsPow x y = some (x ^ y) := by
  rw [jsPow, if_neg hx]
  exact if_pos ⟨n, hn⟩

lemma geometricCumulativeGrowth_map_some {α : Type} [Field α] (s : List (Option α)) :
    geometricCumulativeGrowth ((s.filterMap id).map some) = geometricCumulativeGrowth s := by
  have h : List.filterMap id ((s.filterMap id).map some) = s.filterMap id := by
    rw [List.filterMap_map]; simp
  rw [geometricCumulativeGrowth, geometricCumulativeGrowth, h]

lemma empty_append_str (s : String) : "" ++ s = s := by
  cases s with
  | mk l => rfl

lemma fmtSigned_eq (v : ℚ) (msg : String) :
    fmtSigned (some v) 2 msg =
      (if 0 < jsRound (v * 100) then "+" else "")
        ++ toFixedStr 2 (((jsRound (v * 100) : ℤ) : ℚ) / 100) := by
  have hfac : ((10 : ℚ) ^ (2 : ℕ)) = 100 := by norm_num
  have hc : (0 < ((jsRound (v * 100) : ℤ) : ℚ) / 100) ↔ 0 < jsRound (v * 100) := by
    rw [lt_div_iff (by norm_num : (0 : ℚ) < 100)]
    simp
  simp only [fmtSigned, hfac]
  rw [if_congr hc rfl rfl]

lemma toFixedStr_natCast_div (m : ℕ) :
    toFixedStr 2 (((m : ℤ) : ℚ) / 100) =
      toString (m / 100) ++ "." ++
        String.mk (List.replicate (2 - (toString (m % 100)).length) '0')
        ++ toString (m % 100) := by
  have h0 : (0 : ℚ) ≤ ((m : ℤ) : ℚ) / 100 := by positivity
  have hfac : ((10 : ℚ) ^ (2 : ℕ)) = 100 := by norm_num
  have hfl : ⌊|((m : ℤ) : ℚ) / 100| * 100 + 1 / 2⌋ = (m : ℤ) := by
    rw [abs_of_nonneg h0, div_mul_cancel₀ _ (by norm_num : (100 : ℚ) ≠ 0)]
    rw [Int.floor_int_add]
    norm_num
  simp only [toFixedStr, hfac, hfl, if_neg (not_lt.mpr h0)]
  rw [if_neg (by norm_num : ¬ (2 : ℕ) = 0)]
  rw [Int.toNat_natCast]
  rw [empty_append_str]
  norm_num

lemma fmtSigned_eval (v : ℚ) (m : ℕ) (msg : String)
    (h : jsRound (v * 100) = (m : ℤ)) :
    fmtSigned (some v) 2 msg =
      (if 0 < m then "+" else "")
        ++ (toString (m / 100) ++ "." ++
            String.mk (List.replicate (2 - (toString (m % 100)).length) '0')
            ++ toString (m % 100)) := by
  rw [fmtSigned_eq, h, toFixedStr_natCast_div]
  rw [if_congr Int.natCast_pos rfl rfl]

/-! ### Claim theorems -/

/-- C1: for every series of quarterly change values, cumulative growth is the
compounded product of the non-missing values minus one, times one hundred,
and an empty or all-missing series yields the NaN sentinel. -/
theorem geometricCumulativeGrowth_spec :
    (∀ s : List (Option ℚ),
      geometricCumulativeGrowth s =
        if (s.filterMap id).isEmpty then none
        else some ((((s.filterMap id).map (fun v => 1 + v / 100)).prod - 1) * 100)) ∧
    geometricCumulativeGrowth ([] : List (Option ℚ)) = none ∧
    geometricCumulativeGrowth [(none : Option ℚ), none] = none := by
  refine ⟨?_, rfl, rfl⟩
  intro s
  rw [geometricCumulativeGrowth]
  rcases h : s.filterMap id with _ | ⟨a, t⟩
  · simp
  · have hc : ((fun x : ℚ => 1 + x) ∘ fun v : ℚ => v / 100) = fun v : ℚ => 1 + v / 100 := rfl
    simp only [foldl_mul_one_add, List.map_map, hc, one_mul, List.length_cons,
      Nat.succ_ne_zero, if_false, List.isEmpty_cons, Bool.false_eq_true]

/-- C8 counterexample: the spec example claims `fmtSigned(-0.001, 2)` renders
as the signed string `"-0.00"`; the code rounds `-0.1` to negative zero, whose
fixed-decimal rendering carries no sign, so the output is `"0.00"`. -/
theorem fmtSigned_negzero_cex :
    fmtSigned (some (-0.001 : ℚ)) 2 "M" = "0.00" ∧ "0.00" ≠ "-0.00" := by
  constructor
  · rw [fmtSigned_eval (-0.001) 0 "M" (by rw [jsRound]; norm_num)]
    decide
  · decide

/-- C8 (amended): `fmtSigned` rounds to two decimals, prefixes a plus sign
exactly when the rounded value is strictly positive, renders null/NaN as the
placeholder message, renders `3.456` as `"+3.46"`, and renders `-0.001` as the
unsigned `"0.00"` (negative zero loses its sign in `toFixed`). -/
theorem fmtSigned_spec :
    (∀ msg : String, fmtSigned (none : Option ℚ) 2 msg = msg) ∧
    fmtSigned (some (3.456 : ℚ)) 2 "M" = "+3.46" ∧
    fmtSigned (some (-0.001 : ℚ)) 2 "M" = "0.00" ∧
    (∀ (v : ℚ) (msg : String),
      fmtSigned (some v) 2 msg =
        (if 0 < jsRound (v * 100) then "+" else "")
          ++ toFixedStr 2 (((jsRound (v * 100) : ℤ) : ℚ) / 100)) := by
  refine ⟨fun msg => rfl, ?_, ?_, fun v msg => fmtSigned_eq v msg⟩
  · rw [fmtSigned_eval 3.456 346 "M" (by rw [jsRound]; norm_num)]
    decide
  · rw [fmtSigned_eval (-0.001) 0 "M" (by rw [jsRound]; norm_num)]
    decide

/-- Specification of the trailing-years resolver for claim C5: writing
`cutoff` for the latest date moved back by (months − 1) months, the resolver
returns the undefined interval exactly when no date lies strictly after the
cutoff, and otherwise the least date strictly after the cutoff paired with the
greatest date; and `getRange` routes every digit period to it with
months = years × 12. -/
def PrevRangeSpec (data : List Obs) (N : ℕ) : Prop :=
  (getPreviousYearRange data (N * 12) = (none, none) ↔
    ∀ r ∈ data, r.report_date ≤
      jsSetMonthMinus (listMax (data.map (fun r => r.report_date)))
        (((N * 12 : ℕ) : ℤ) - 1)) ∧
  (∀ s e, getPreviousYearRange data (N * 12) = (some s, some e) →
    e ∈ data.map (fun r => r.report_date) ∧
    (∀ d ∈ data.map (fun r => r.report_date), d ≤ e) ∧
    s ∈ data.map (fun r => r.report_date) ∧
    jsSetMonthMinus (listMax (data.map (fun r => r.report_date)))
      (((N * 12 : ℕ) : ℤ) - 1) < s ∧
    (∀ d ∈ data.map (fun r => r.report_date),
      jsSetMonthMinus (listMax (data.map (fun r => r.report_date)))
        (((N * 12 : ℕ) : ℤ) - 1) < d → s ≤ d)) ∧
  (∀ (rawData : List Obs) (p : String), isDigits p = true →
    getRange rawData data p = getPreviousYearRange data (natFromDigits p * 12))

/-- C5: for a nonempty collection and a trailing period of N years, the
resolver behaves as `PrevRangeSpec` describes. -/
theorem getPreviousYearRange_spec (data : List Obs) (N : ℕ) (hne : data ≠ []) :
    PrevRangeSpec data N := by
  rcases data with _ | ⟨r0, rest⟩
  · exact absurd rfl hne
  have hdef : getPreviousYearRange (r0 :: rest) (N * 12) =
      if (((r0 :: rest).filter (fun r =>
            decide (jsSetMonthMinus (listMax ((r0 :: rest).map (fun r => r.report_date)))
              (((N * 12 : ℕ) : ℤ) - 1) < r.report_date))).map (fun r => r.report_date)).isEmpty
      then (none, none)
      else (some (listMin (((r0 :: rest).filter (fun r =>
            decide (jsSetMonthMinus (listMax ((r0 :: rest).map (fun r => r.report_date)))
              (((N * 12 : ℕ) : ℤ) - 1) < r.report_date))).map (fun r => r.report_date))),
            some (listMax ((r0 :: rest).map (fun r => r.report_date)))) := rfl
  refine ⟨?_, ?_, ?_⟩
  · rw [hdef]
    by_cases hc : (((r0 :: rest).filter (fun r =>
        decide (jsSetMonthMinus (listMax ((r0 :: rest).map (fun r => r.report_date)))
          (((N * 12 : ℕ) : ℤ) - 1) < r.report_date))).map (fun r => r.report_date)).isEmpty
    · rw [if_pos hc]
      simp only [List.isEmpty_iff, List.map_eq_nil_iff, List.filter_eq_nil_iff] at hc
      constructor
      · intro _ r hr
        have := hc r hr
        simpa using this
      · intro _
        rfl
    · rw [if_neg hc]
      simp only [List.isEmpty_iff, List.map_eq_nil_iff, List.filter_eq_nil_iff] at hc
      push_neg at hc
      obtain ⟨r, hr, hrd⟩ := hc
      constructor
      · intro h
        simp at h
      · intro hall
        have := hall r hr
        simp at hrd
        exact absurd this (not_le.mpr hrd)
  · intro s e heq
    rw [hdef] at heq
    by_cases hc : (((r0 :: rest).filter (fun r =>
        decide (jsSetMonthMinus (listMax ((r0 :: rest).map (fun r => r.report_date)))
          (((N * 12 : ℕ) : ℤ) - 1) < r.report_date))).map (fun r => r.report_date)).isEmpty
    · rw [if_pos hc] at heq
      simp at heq
    · rw [if_neg hc] at heq
      have hs2 : listMin (((r0 :: rest).filter (fun r =>
          decide (jsSetMonthMinus (listMax ((r0 :: rest).map (fun r => r.report_date)))
            (((N * 12 : ℕ) : ℤ) - 1) < r.report_date))).map (fun r => r.report_date)) = s :=
        Option.some.inj (congrArg Prod.fst heq)
      have he2 : listMax ((r0 :: rest).map (fun r => r.report_date)) = e :=
        Option.some.inj (congrArg Prod.snd heq)
      subst hs2
      subst he2
      have hmax_mem : listMax ((r0 :: rest).map (fun r => r.report_date)) ∈
          (r0 :: rest).map (fun r => r.report_date) := by
        rw [List.map_cons]
        exact listMax_mem _ _
      have hmax_le : ∀ d ∈ (r0 :: rest).map (fun r => r.report_date),
          d ≤ listMax ((r0 :: rest).map (fun r => r.report_date)) := by
        rw [List.map_cons]
        exact le_listMax _ _
      rcases hcand : ((r0 :: rest).filter (fun r =>
          decide (jsSetMonthMinus (listMax ((r0 :: rest).map (fun r => r.report_date)))
            (((N * 12 : ℕ) : ℤ) - 1) < r.report_date))).map (fun r => r.report_date)
        with _ | ⟨ch, ct⟩
      · rw [hcand] at hc
        simp at hc
      have hmin_mem : listMin (ch :: ct) ∈ ch :: ct := listMin_mem _ _
      have hmin_le : ∀ x ∈ ch :: ct, listMin (ch :: ct) ≤ x := listMin_le _ _
      rw [hcand]
      have hsub : ∀ x ∈ ch :: ct, x ∈ (r0 :: rest).map (fun r => r.report_date) ∧
          jsSetMonthMinus (listMax ((r0 :: rest).map (fun r => r.report_date)))
            (((N * 12 : ℕ) : ℤ) - 1) < x := by
        intro x hx
        rw [← hcand] at hx
        obtain ⟨r, hrf, hrd⟩ := List.mem_map.mp hx
        have hr2 := List.mem_filter.mp hrf
        refine ⟨List.mem_map.mpr ⟨r, hr2.1, hrd⟩, ?_⟩
        have := hr2.2
        rw [hrd] at this
        simpa using this
      obtain ⟨hsm, hslt⟩ := hsub _ hmin_mem
      refine ⟨hmax_mem, hmax_le, hsm, hslt, ?_⟩
      intro d hd hdlt
      obtain ⟨r, hrm, hrd⟩ := List.mem_map.mp hd
      have hrf : r ∈ (r0 :: rest).filter (fun r =>
          decide (jsSetMonthMinus (listMax ((r0 :: rest).map (fun r => r.report_date)))
            (((N * 12 : ℕ) : ℤ) - 1) < r.report_date)) := by
        rw [List.mem_filter]
        exact ⟨hrm, by rw [hrd]; exact decide_eq_true hdlt⟩
      have hdc : d ∈ ch :: ct := by
        rw [← hcand]
        exact List.mem_map.mpr ⟨r, hrf, hrd⟩
      exact hmin_le d hdc
  · intro rawData p hp
    have hp1 : p ≠ "YTD" := by
      rintro rfl
      exact absurd hp (by decide)
    have hp2 : p ≠ "ALL" := by
      rintro rfl
      exact absurd hp (by decide)
    rw [getRange, if_neg (by simp), if_neg (by simp [hp1]), if_neg (by simp [hp2]), if_pos hp]

/-- Two observations of one manager 366 days apart, used to exercise the
range resolver and the eligibility rules on concrete data. -/
def dsEli : List Obs :=
  [⟨0, "F", "A", some 2, some 10, some 1⟩,
   ⟨31622400000, "F", "A", some 3, some 12, some 1⟩,
   ⟨0, "F", "B", some 1, some 5, some 1⟩]

theorem getPreviousYearRange_spec_witness :
    ((dsEli ≠ []) ∧ PrevRangeSpec dsEli 1) :=
  ⟨by decide, getPreviousYearRange_spec dsEli 1 (by decide)⟩

/-- Specification of the coverage-eligibility rule for claim C3: a manager
lands in the numeric partition exactly when the eligibility flag holds; with a
non-null requested length the flag means having window observations and
coverage within the 1e-6 tolerance; zero window observations always disable
it; YTD imposes no coverage requirement (null requested length); and the
coverage is the span of the manager's history divided by 365.25 days. -/
def EligibilitySpec (rawData : List Obs) (ft period c : String) : Prop :=
  (∀ msgFNE, c ∈ (growthNumericOf rawData ft period msgFNE).map KRow.company ↔
      isEligibleOf rawData ft period c = true) ∧
  (∀ ry, requestedYearsOf rawData ft period = some ry →
    (isEligibleOf rawData ft period c = true ↔
      grpRangeOf rawData ft period c ≠ [] ∧
        ry ≤ coverageYearsOf rawData ft c + 1 / 1000000)) ∧
  (grpRangeOf rawData ft period c = [] → isEligibleOf rawData ft period c = false) ∧
  (period = "YTD" → requestedYearsOf rawData ft period = none) ∧
  (requestedYearsOf rawData ft period = none →
    (isEligibleOf rawData ft period c = true ↔ grpRangeOf rawData ft period c ≠ [])) ∧
  (∃ dmin dmax : ℤ,
    dmin ∈ (historyRowsOf rawData ft c).map (fun r => r.report_date) ∧
    dmax ∈ (historyRowsOf rawData ft c).map (fun r => r.report_date) ∧
    (∀ d ∈ (historyRowsOf rawData ft c).map (fun r => r.report_date),
      dmin ≤ d ∧ d ≤ dmax) ∧
    coverageYearsOf rawData ft c = (((dmax - dmin : ℤ) : ℚ) / 86400000) / 365.25)

/-- C3: eligibility of a listed manager behaves as `EligibilitySpec`
describes. -/
theorem eligibility_spec (rawData : List Obs) (ft period c : String)
    (hc : c ∈ companiesOf rawData ft) : EligibilitySpec rawData ft period c := by
  refine ⟨?_, ?_, ?_, ?_, ?_, ?_⟩
  · intro msgFNE
    rw [mem_growthNumericOf]
    simp [hc]
  · intro ry hry
    simp [isEligibleOf, hasEnoughHistoryOf, hry, List.isEmpty_iff]
  · intro hgrp
    simp [isEligibleOf, hgrp]
  · rintro rfl
    simp only [requestedYearsOf]
    rw [if_neg (by decide : ¬ ("YTD" : String) = "ALL")]
    rw [if_neg (by decide : ¬ isDigits "YTD" = true)]
  · intro hnone
    simp [isEligibleOf, hasEnoughHistoryOf, hnone, List.isEmpty_iff]
  · have hnil := historyRowsOf_ne_nil rawData ft c hc
    rcases hh : historyRowsOf rawData ft c with _ | ⟨r0, rest⟩
    · exact absurd hh hnil
    have hcov : coverageYearsOf rawData ft c =
        (((listMax (r0.report_date :: rest.map (fun r => r.report_date)) -
           listMin (r0.report_date :: rest.map (fun r => r.report_date)) : ℤ) : ℚ)
          / 86400000) / 365.25 := by
      rw [coverageYearsOf, hh, List.map_cons]
    refine ⟨listMin (r0.report_date :: rest.map (fun r => r.report_date)),
            listMax (r0.report_date :: rest.map (fun r => r.report_date)),
            ?_, ?_, ?_, hcov⟩
    · rw [List.map_cons]
      exact listMin_mem _ _
    · rw [List.map_cons]
      exact listMax_mem _ _
    · intro d hd
      rw [List.map_cons] at hd
      exact ⟨listMin_le _ _ d hd, le_listMax _ _ d hd⟩

theorem eligibility_spec_witness :
    ("A" ∈ companiesOf dsEli "F") ∧ EligibilitySpec dsEli "F" "1" "A" :=
  ⟨by decide, eligibility_spec dsEli "F" "1" "A" (by decide)⟩

/-- Specification of the ALL period for claim C4: the interval resolves to
the extremes of the whole dataset (not the fund-type scope), the requested
coverage becomes that interval's span in years, displayed rows remain
fund-type filtered, and an eligible manager's coverage must reach the global
span. -/
def AllPeriodSpec (rawData : List Obs) (ft : String) : Prop :=
  ∃ dmin dmax : ℤ,
    rangeOf rawData ft "ALL" = (some dmin, some dmax) ∧
    dmin ∈ rawData.map (fun r => r.report_date) ∧
    dmax ∈ rawData.map (fun r => r.report_date) ∧
    (∀ d ∈ rawData.map (fun r => r.report_date), dmin ≤ d ∧ d ≤ dmax) ∧
    requestedYearsOf rawData ft "ALL" =
      some ((((dmax - dmin : ℤ) : ℚ) / 86400000) / 365.25) ∧
    (∀ r ∈ rangeDataOf rawData ft "ALL", r.fund_type = ft) ∧
    (∀ c, isEligibleOf rawData ft "ALL" c = true →
      (((dmax - dmin : ℤ) : ℚ) / 86400000) / 365.25 ≤
        coverageYearsOf rawData ft c + 1 / 1000000)

/-- C4: for a nonempty dataset the ALL period behaves as `AllPeriodSpec`
describes. -/
theorem allPeriod_spec (rawData : List Obs) (ft : String) (hne : rawData ≠ []) :
    AllPeriodSpec rawData ft := by
  rcases rawData with _ | ⟨r0, rest⟩
  · exact absurd rfl hne
  have hrange : rangeOf (r0 :: rest) ft "ALL" =
      (some (listMin ((r0 :: rest).map (fun r => r.report_date))),
       some (listMax ((r0 :: rest).map (fun r => r.report_date)))) := rfl
  have hreq : requestedYearsOf (r0 :: rest) ft "ALL" =
      some ((((listMax ((r0 :: rest).map (fun r => r.report_date)) -
        listMin ((r0 :: rest).map (fun r => r.report_date)) : ℤ) : ℚ) / 86400000) / 365.25) := rfl
  refine ⟨listMin ((r0 :: rest).map (fun r => r.report_date)),
          listMax ((r0 :: rest).map (fun r => r.report_date)),
          hrange, ?_, ?_, ?_, hreq, ?_, ?_⟩
  · rw [List.map_cons]
    exact listMin_mem _ _
  · rw [List.map_cons]
    exact listMax_mem _ _
  · intro d hd
    rw [List.map_cons] at hd ⊢
    exact ⟨listMin_le _ _ d hd, le_listMax _ _ d hd⟩
  · intro r hr
    have h1 := (List.mem_filter.mp hr).1
    have h2 := (List.mem_filter.mp h1).2
    simpa using h2
  · intro c helig
    rw [isEligibleOf, Bool.and_eq_true] at helig
    have h2 := helig.2
    rw [hasEnoughHistoryOf, hreq] at h2
    exact of_decide_eq_true h2

theorem allPeriod_spec_witness :
    (dsEli ≠ []) ∧ AllPeriodSpec dsEli "F" :=
  ⟨by decide, allPeriod_spec dsEli "F" (by decide)⟩

/-- Two observations of one manager where the later quarterly change is null,
exhibiting the null-to-0 coercion inside `Math.min`/`Math.max`. -/
def dsNull : List Obs :=
  [⟨0, "F", "A", some 5, some 10, some 1⟩,
   ⟨86400000, "F", "A", none, some 12, some 1⟩]

/-- C6 counterexample: an eligible manager whose window changes are `[5,
null]`.  The non-null minimum is 5, but the code takes `Math.min` over the
raw values, coercing the null to 0, so the worst-quarter value is 0. -/
theorem worstVal_null_cex :
    isEligibleOf dsNull "F" "YTD" "A" = true ∧
    relChangesOf dsNull "F" "YTD" "A" = [some 5, none] ∧
    (relChangesOf dsNull "F" "YTD" "A").filterMap id = [5] ∧
    worstValOf dsNull "F" "YTD" "A" = 0 ∧
    ((0 : ℚ) ≠ 5) := by
  refine ⟨by decide, by decide, by decide, by decide, by decide⟩

/-- Specification of the quarterly extremes for claim C6 (amended): over the
window changes with null coerced to 0, the worst value is the least and the
best value the greatest element, and the eligible manager's extremes row
carries exactly these two formatted values with the worst value as sort
key. -/
def ExtremesSpec (rawData : List Obs) (ft period msgFNE c : String) : Prop :=
  (worstValOf rawData ft period c ∈
      (relChangesOf rawData ft period c).map (fun o => o.getD 0) ∧
    bestValOf rawData ft period c ∈
      (relChangesOf rawData ft period c).map (fun o => o.getD 0) ∧
    (∀ x ∈ (relChangesOf rawData ft period c).map (fun o => o.getD 0),
      worstValOf rawData ft period c ≤ x ∧ x ≤ bestValOf rawData ft period c)) ∧
  (∃ row ∈ extremesNumericOf rawData ft period msgFNE,
    row.company = c ∧
    row.key = JVal.num (worstValOf rawData ft period c) ∧
    row.cells = (fmtSigned (some (worstValOf rawData ft period c)) 2 msgFNE,
                 fmtSigned (some (bestValOf rawData ft period c)) 2 msgFNE))

/-- C6 (amended): the quarterly extremes of an eligible manager behave as
`ExtremesSpec` describes. -/
theorem extremes_spec (rawData : List Obs) (ft period msgFNE c : String)
    (hc : c ∈ companiesOf rawData ft)
    (he : isEligibleOf rawData ft period c = true) :
    ExtremesSpec rawData ft period msgFNE c := by
  have hgrp : grpRangeOf rawData ft period c ≠ [] := by
    intro h
    rw [isEligibleOf, h] at he
    simpa using he
  have hsne : sortedObsOf rawData ft period c ≠ [] := by
    intro h
    have hp := jsSortBy_perm (fun x h => decide (h.report_date < x.report_date))
      (grpRangeOf rawData ft period c)
    rw [sortedObsOf] at h
    rw [h] at hp
    exact hgrp hp.nil_eq.symm
  rcases hrc : (relChangesOf rawData ft period c).map (fun o => o.getD 0)
    with _ | ⟨h0, t0⟩
  · exfalso
    rw [List.map_eq_nil_iff, relChangesOf, List.map_eq_nil_iff] at hrc
    exact hsne hrc
  have hw : worstValOf rawData ft period c = t0.foldl min h0 := by
    rw [worstValOf, hrc]
  have hb : bestValOf rawData ft period c = t0.foldl max h0 := by
    rw [bestValOf, hrc]
  constructor
  · rw [hrc, hw, hb]
    refine ⟨foldl_min_cons_mem h0 t0, foldl_max_cons_mem h0 t0, ?_⟩
    intro x hx
    exact ⟨foldl_min_cons_le h0 t0 x hx, foldl_max_cons_le h0 t0 x hx⟩
  · refine ⟨⟨c, (fmtSigned (some (worstValOf rawData ft period c)) 2 msgFNE,
              fmtSigned (some (bestValOf rawData ft period c)) 2 msgFNE),
              JVal.num (worstValOf rawData ft period c)⟩, ?_, rfl, rfl, rfl⟩
    rw [extremesNumericOf]
    exact List.mem_map.mpr ⟨c, List.mem_filter.mpr ⟨hc, he⟩, rfl⟩

theorem extremes_spec_witness :
    ("A" ∈ companiesOf dsNull "F" ∧ isEligibleOf dsNull "F" "YTD" "A" = true) ∧
    ExtremesSpec dsNull "F" "YTD" "FNE" "A" :=
  ⟨⟨by decide, by decide⟩,
   extremes_spec dsNull "F" "YTD" "FNE" "A" (by decide) (by decide)⟩

lemma participantsOf_cons (rawData : List Obs) (ft period c msgFNE : String)
    (h : Obs) (t : List Obs)
    (hst : sortedObsOf rawData ft period c = h :: t) :
    participantsOf rawData ft period c msgFNE =
      match h.number_of_participants,
            ((h :: t).getLast (List.cons_ne_nil h t)).number_of_participants with
      | some f, some lp =>
        (toString (jsRound lp),
         if 0 ≤ jsRound (lp - f) then "+" ++ toString (jsRound (lp - f))
           else toString (jsRound (lp - f)),
         JVal.num ((jsRound lp : ℤ) : ℚ))
      | _, _ => (msgFNE, msgFNE, JVal.ninf) := by
  unfold participantsOf
  rw [hst]

/-- One observation of one manager with a null participant count. -/
def dsPart : List Obs := [⟨0, "F", "A", some 1, none, some 1⟩]

/-- C7 counterexample: an eligible manager with a null participant count.
The claim says the row carries the no-data message; the code pushes the
fund-did-not-exist message (only the expense-ratio table uses the no-data
message). -/
theorem participants_placeholder_cex :
    isEligibleOf dsPart "F" "YTD" "A" = true ∧
    participantsRowsOf dsPart "F" "YTD" "Fund did not exist" =
      [("A", "Fund did not exist", "Fund did not exist")] ∧
    ("Fund did not exist" : String) ≠ "No data reported" := by
  refine ⟨by decide, by decide, by decide⟩

/-- Specification of the participants metric for claim C7 (amended): the
window observations are sorted ascending by date (so first/last are
first-by-date/last-by-date); a null first or last count yields the
fund-did-not-exist placeholder in both cells with sort key negative infinity;
otherwise the cells are the rounded latest count and the signed rounded
change, with the rounded latest count as sort key; and an eligible manager's
row carries exactly this data. -/
def ParticipantsSpec (rawData : List Obs) (ft period msgFNE c : String) : Prop :=
  (sortedObsOf rawData ft period c).Perm (grpRangeOf rawData ft period c) ∧
  (sortedObsOf rawData ft period c).Pairwise
    (fun a b => a.report_date ≤ b.report_date) ∧
  (∃ row ∈ participantsNumericOf rawData ft period msgFNE,
    row.company = c ∧
    row.cells = ((participantsOf rawData ft period c msgFNE).1,
                 (participantsOf rawData ft period c msgFNE).2.1) ∧
    row.key = (participantsOf rawData ft period c msgFNE).2.2) ∧
  (∀ h t, sortedObsOf rawData ft period c = h :: t →
    ((h.number_of_participants = none ∨
        ((h :: t).getLast (List.cons_ne_nil h t)).number_of_participants = none) →
      participantsOf rawData ft period c msgFNE = (msgFNE, msgFNE, JVal.ninf)) ∧
    (∀ f lp, h.number_of_participants = some f →
      ((h :: t).getLast (List.cons_ne_nil h t)).number_of_participants = some lp →
      participantsOf rawData ft period c msgFNE =
        (toString (jsRound lp),
         if 0 ≤ jsRound (lp - f) then "+" ++ toString (jsRound (lp - f))
           else toString (jsRound (lp - f)),
         JVal.num ((jsRound lp : ℤ) : ℚ))))

/-- C7 (amended): the participants metric of an eligible manager behaves as
`ParticipantsSpec` describes. -/
theorem participants_spec (rawData : List Obs) (ft period msgFNE c : String)
    (hc : c ∈ companiesOf rawData ft)
    (he : isEligibleOf rawData ft period c = true) :
    ParticipantsSpec rawData ft period msgFNE c := by
  refine ⟨jsSortBy_perm _ _, ?_, ?_, ?_⟩
  · have hp := jsSortBy_pairwise (fun (x h : Obs) => decide (h.report_date < x.report_date))
      (fun _ => True)
      (by
        intro a b _ _ hab
        simp only [decide_eq_true_eq] at hab
        simpa using not_lt.mpr (le_of_lt hab))
      (by
        intro a b z _ _ _ hab hbz
        simp only [decide_eq_false_iff_not, not_lt] at hab hbz
        simpa using not_lt.mpr (le_trans hab hbz))
      (grpRangeOf rawData ft period c) (fun _ _ => trivial)
    rw [sortedObsOf]
    refine hp.imp ?_
    intro a b hab
    simpa [not_lt] using hab
  · refine ⟨⟨c, ((participantsOf rawData ft period c msgFNE).1,
              (participantsOf rawData ft period c msgFNE).2.1),
              (participantsOf rawData ft period c msgFNE).2.2⟩, ?_, rfl, rfl, rfl⟩
    rw [participantsNumericOf]
    exact List.mem_map.mpr ⟨c, List.mem_filter.mpr ⟨hc, he⟩, rfl⟩
  · intro h t hst
    constructor
    · intro hnone
      rw [participantsOf_cons rawData ft period c msgFNE h t hst]
      rcases hnone with hf | hl
      · rw [hf]
      · rw [hl]
        rcases h.number_of_participants with _ | f <;> rfl
    · intro f lp hf hl
      rw [participantsOf_cons rawData ft period c msgFNE h t hst, hf, hl]

theorem participants_spec_witness :
    ("A" ∈ companiesOf dsPart "F" ∧ isEligibleOf dsPart "F" "YTD" "A" = true) ∧
    ParticipantsSpec dsPart "F" "YTD" "FNE" "A" :=
  ⟨⟨by decide, by decide⟩,
   participants_spec dsPart "F" "YTD" "FNE" "A" (by decide) (by decide)⟩

lemma growth_some_ne_nil {α : Type} [Field α] (s : List (Option α)) (g : α)
    (hg : geometricCumulativeGrowth s = some g) : s.filterMap id ≠ [] := by
  intro h
  rw [geometricCumulativeGrowth] at hg
  simp [h] at hg

lemma growth_single {α : Type} [Field α] (q v : α)
    (hv : (1 * (1 + q / 100) - 1) * 100 = v) :
    geometricCumulativeGrowth [some q] = some v := by
  have hclean : ([some q] : List (Option α)).filterMap id = [q] := by simp
  simp only [geometricCumulativeGrowth, hclean, List.length_cons, List.length_nil,
    List.map_cons, List.map_nil, List.foldl_cons, List.foldl_nil]
  rw [if_neg (by norm_num : ¬ (0 + 1 : ℕ) = 0)]
  exact congrArg some hv

lemma annualised_eq (series : List (Option ℝ)) (g : ℝ)
    (hg : geometricCumulativeGrowth series = some g)
    (hnn : 0 ≤ 1 + g / 100) :
    annualisedYearlyReturn series =
      some (((1 + g / 100) ^ (1 / (((series.filterMap id).length : ℝ) / 4)) - 1) * 100) := by
  have hne := growth_some_ne_nil series g hg
  have hlen : ¬ (series.filterMap id).length = 0 := by
    simpa [List.length_eq_zero] using hne
  have hy : ¬ ((((series.filterMap id).length : ℕ) : ℚ) / 4 ≤ 0) := by
    rw [not_le]
    have hpos : (0 : ℚ) < (((series.filterMap id).length : ℕ) : ℚ) := by
      exact_mod_cast Nat.pos_of_ne_zero hlen
    exact div_pos hpos (by norm_num)
  have hcast : (((((series.filterMap id).length : ℕ) : ℚ) / 4 : ℚ) : ℝ)
      = (((series.filterMap id).length : ℕ) : ℝ) / 4 := by
    push_cast
    ring
  simp only [annualisedYearlyReturn]
  rw [if_neg hlen, if_neg hy, geometricCumulativeGrowth_map_some, hg]
  show Option.map (fun p => (p - 1) * 100)
      (jsPow (1 + g / 100)
        (1 / ((((((series.filterMap id).length : ℕ) : ℚ) / 4 : ℚ)) : ℝ))) = _
  rw [jsPow_of_nonneg _ _ hnn, hcast]
  rfl

/-- Companion predicate for claim C2: the annualised return equals the
years-th root formula over the cumulative growth, inverting exactly
(`(1 + annualised/100) ^ years = 1 + growth/100` with
`years = quarters / 4`), and an all-null series gives the NaN sentinel. -/
def AnnualisedIdentity (series : List (Option ℝ)) (g : ℝ) : Prop :=
  (annualisedYearlyReturn series =
    some (((1 + g / 100) ^ (1 / (((series.filterMap id).length : ℝ) / 4)) - 1) * 100)) ∧
  (∀ a, annualisedYearlyReturn series = some a →
    (1 + a / 100) ^ (((series.filterMap id).length : ℝ) / 4) = 1 + g / 100) ∧
  (∀ s : List (Option ℝ), s.filterMap id = [] → annualisedYearlyReturn s = none)

/-- C2 (amended): when the compounded factor `1 + growth/100` is nonnegative
(in particular whenever every quarterly change is at least −100), the
annualised return satisfies `AnnualisedIdentity`; a series with changes below
−100 breaks the identity, see the counterexample. -/
theorem annualised_spec (series : List (Option ℝ)) (g : ℝ)
    (hg : geometricCumulativeGrowth series = some g)
    (hnn : 0 ≤ 1 + g / 100) :
    AnnualisedIdentity series g := by
  have hmain := annualised_eq series g hg hnn
  refine ⟨hmain, ?_, ?_⟩
  · intro a ha
    rw [hmain] at ha
    have ha2 := Option.some.inj ha
    have hy : (((series.filterMap id).length : ℕ) : ℝ) / 4 ≠ 0 := by
      have h1 : series.filterMap id ≠ [] := growth_some_ne_nil series g hg
      have h2 : (series.filterMap id).length ≠ 0 := by
        simpa [List.length_eq_zero] using h1
      have h3 : ((series.filterMap id).length : ℝ) ≠ 0 := Nat.cast_ne_zero.mpr h2
      exact div_ne_zero h3 (by norm_num)
    have hsimp : (1 : ℝ) +
        (((1 + g / 100) ^ (1 / (((series.filterMap id).length : ℝ) / 4)) - 1) * 100) / 100
        = (1 + g / 100) ^ (1 / (((series.filterMap id).length : ℝ) / 4)) := by
      ring
    rw [← ha2, hsimp, ← Real.rpow_mul hnn, one_div,
      inv_mul_cancel₀ hy, Real.rpow_one]
  · intro s hs
    simp [annualisedYearlyReturn, hs]

theorem annualised_spec_witness :
    (geometricCumulativeGrowth [some (2 : ℝ)] = some 2 ∧
      (0 : ℝ) ≤ 1 + 2 / 100) ∧
    AnnualisedIdentity [some (2 : ℝ)] 2 :=
  ⟨⟨growth_single 2 2 (by norm_num), by norm_num⟩,
   annualised_spec [some (2 : ℝ)] 2 (growth_single 2 2 (by norm_num)) (by norm_num)⟩

/-- C2 counterexample: a single quarterly change of −150 % gives cumulative
growth −150 and an annualised return of −93.75 (the even integer power loses
the sign of the negative compounded factor), and the claimed inverse identity
fails: `(1 - 93.75/100) ^ (1/4) = 1/2`, which is not `1 - 150/100 = -1/2`. -/
theorem annualised_identity_cex :
    geometricCumulativeGrowth [some (-150 : ℝ)] = some (-150) ∧
    annualisedYearlyReturn [some (-150 : ℝ)] = some (-93.75) ∧
    ([some (-150 : ℝ)].filterMap id).length = 1 ∧
    (1 + (-93.75 : ℝ) / 100) ^ (((1 : ℝ)) / 4) = 1 / 2 ∧
    ((1 : ℝ) / 2) ≠ 1 + (-150 : ℝ) / 100 := by
  have hg : geometricCumulativeGrowth [some (-150 : ℝ)] = some (-150) :=
    growth_single (-150) (-150) (by norm_num)
  refine ⟨hg, ?_, by simp, ?_, by norm_num⟩
  · have hclean : ([some (-150 : ℝ)] : List (Option ℝ)).filterMap id = [-150] := by simp
    simp only [annualisedYearlyReturn]
    rw [if_neg (by simp : ¬ (([some (-150 : ℝ)] : List (Option ℝ)).filterMap id).length = 0)]
    rw [if_neg (by rw [hclean]; norm_num :
      ¬ (((([some (-150 : ℝ)] : List (Option ℝ)).filterMap id).length : ℚ) / 4 ≤ 0))]
    rw [geometricCumulativeGrowth_map_some, hg]
    show Option.map (fun p => (p - 1) * 100)
        (jsPow (1 + (-150 : ℝ) / 100)
          (1 / ((((((([some (-150 : ℝ)] : List (Option ℝ)).filterMap id).length : ℕ) : ℚ)
            / 4 : ℚ)) : ℝ))) = _
    have hexp : (1 : ℝ) /
        (((((([some (-150 : ℝ)] : List (Option ℝ)).filterMap id).length : ℕ) : ℚ) / 4 : ℚ) : ℝ)
        = ((4 : ℕ) : ℝ) := by
      rw [hclean]
      push_cast
      norm_num
    rw [jsPow_neg_int _ _ (by norm_num : ¬ (0 : ℝ) ≤ 1 + (-150 : ℝ) / 100)
      4 (by rw [hexp]; norm_num)]
    rw [hexp, Real.rpow_natCast]
    norm_num
  · have h1 : (1 + (-93.75 : ℝ) / 100) = (1 / 2 : ℝ) ^ ((4 : ℕ) : ℝ) := by
      rw [Real.rpow_natCast]
      norm_num
    rw [h1, ← Real.rpow_mul (by norm_num : (0 : ℝ) ≤ 1 / 2)]
    norm_num

lemma jvalOf_ne_nan {α : Type} {o : Option α} (h : o.isSome = true) :
    jvalOf o ≠ JVal.nan := by
  cases o with
  | none => simp at h
  | some v => simp [jvalOf]

lemma participantsOf_key_ne_nan (rawData : List Obs) (ft period c msgFNE : String) :
    (participantsOf rawData ft period c msgFNE).2.2 ≠ JVal.nan := by
  cases hs : sortedObsOf rawData ft period c with
  | nil =>
    unfold participantsOf
    rw [hs]
    simp
  | cons h t =>
    rw [participantsOf_cons rawData ft period c msgFNE h t hs]
    rcases h.number_of_participants with _ | f <;>
      rcases ((h :: t).getLast (List.cons_ne_nil h t)).number_of_participants
        with _ | lp <;> simp

lemma bikOf_cons (rawData : List Obs) (ft period c msgND : String)
    (h : Obs) (t : List Obs)
    (hst : sortedObsOf rawData ft period c = h :: t) :
    bikOf rawData ft period c msgND =
      match ((h :: t).getLast (List.cons_ne_nil h t)).bik_pct with
      | none => (msgND, JVal.pinf)
      | some b => (toFixedStr 3 b, JVal.num b) := by
  unfold bikOf
  rw [hst]

lemma bikOf_key_ne_nan (rawData : List Obs) (ft period c msgND : String) :
    (bikOf rawData ft period c msgND).2 ≠ JVal.nan := by
  cases hs : sortedObsOf rawData ft period c with
  | nil =>
    unfold bikOf
    rw [hs]
    simp
  | cons h t =>
    rw [bikOf_cons rawData ft period c msgND h t hs]
    rcases ((h :: t).getLast (List.cons_ne_nil h t)).bik_pct with _ | b <;> simp

/-- Specification of the row ordering for claim C9 (amended): in each of the
five tables the sorted numeric partition is ordered by the family's rule
(here: no later row is required by the comparator to precede an earlier one),
and the final table is the sorted numeric rows followed by the placeholder
rows.  For growth and annualised return this needs every eligible manager's
value to be non-NaN; the other families never produce NaN keys. -/
def TablesSortedSpec (rawData : List Obs) (ft period msgFNE msgND : String) : Prop :=
  (growthSortedOf rawData ft period msgFNE).Pairwise (fun a b => gtDesc a b = false) ∧
  (avgSortedOf rawData ft period msgFNE).Pairwise (fun a b => gtDesc a b = false) ∧
  (extremesSortedOf rawData ft period msgFNE).Pairwise (fun a b => gtAsc a b = false) ∧
  (participantsSortedOf rawData ft period msgFNE).Pairwise (fun a b => gtDesc a b = false) ∧
  (bikSortedOf rawData ft period msgND).Pairwise (fun a b => gtAsc a b = false) ∧
  growthRowsOf rawData ft period msgFNE =
    (growthSortedOf rawData ft period msgFNE).map (fun r => (r.company, r.cells))
      ++ growthNoDataOf rawData ft period msgFNE ∧
  avgRowsOf rawData ft period msgFNE =
    (avgSortedOf rawData ft period msgFNE).map (fun r => (r.company, r.cells))
      ++ avgNoDataOf rawData ft period msgFNE ∧
  extremesRowsOf rawData ft period msgFNE =
    (extremesSortedOf rawData ft period msgFNE).map
      (fun r => (r.company, r.cells.1, r.cells.2))
      ++ extremesNoDataOf rawData ft period msgFNE ∧
  participantsRowsOf rawData ft period msgFNE =
    (participantsSortedOf rawData ft period msgFNE).map
      (fun r => (r.company, r.cells.1, r.cells.2))
      ++ participantsNoDataOf rawData ft period msgFNE ∧
  bikRowsOf rawData ft period msgFNE msgND =
    (bikSortedOf rawData ft period msgND).map (fun r => (r.company, r.cells))
      ++ bikNoDataOf rawData ft period msgFNE

/-- C9 (amended): provided every eligible manager has a non-NaN growth value
and annualised value (at least one non-null change in the window), all five
tables are ordered by their family rule with the numeric partition preceding
the placeholder partition, as `TablesSortedSpec` describes. -/
theorem tables_sorted_spec (rawData : List Obs) (ft period msgFNE msgND : String)
    (hg : ∀ c ∈ companiesOf rawData ft, isEligibleOf rawData ft period c = true →
      (growthValOf rawData ft period c).isSome = true)
    (ha : ∀ c ∈ companiesOf rawData ft, isEligibleOf rawData ft period c = true →
      (avgValOf rawData ft period c).isSome = true) :
    TablesSortedSpec rawData ft period msgFNE msgND := by
  refine ⟨?_, ?_, ?_, ?_, ?_, rfl, rfl, rfl, rfl, rfl⟩
  · refine jsSortBy_pairwise gtDesc (fun r => r.key ≠ JVal.nan)
      (fun a b pa pb => gtDesc_asym a b pa pb)
      (fun a b z pa pb pz => gtDesc_trans a b z pa pb pz) _ ?_
    intro r hr
    obtain ⟨c, hcf, rfl⟩ := List.mem_map.mp hr
    obtain ⟨hcm, helig⟩ := List.mem_filter.mp hcf
    exact jvalOf_ne_nan (hg c hcm helig)
  · refine jsSortBy_pairwise gtDesc (fun r => r.key ≠ JVal.nan)
      (fun a b pa pb => gtDesc_asym a b pa pb)
      (fun a b z pa pb pz => gtDesc_trans a b z pa pb pz) _ ?_
    intro r hr
    obtain ⟨c, hcf, rfl⟩ := List.mem_map.mp hr
    obtain ⟨hcm, helig⟩ := List.mem_filter.mp hcf
    exact jvalOf_ne_nan (ha c hcm helig)
  · refine jsSortBy_pairwise gtAsc (fun r => r.key ≠ JVal.nan)
      (fun a b pa pb => gtAsc_asym a b pa pb)
      (fun a b z pa pb pz => gtAsc_trans a b z pa pb pz) _ ?_
    intro r hr
    obtain ⟨c, hcf, rfl⟩ := List.mem_map.mp hr
    simp
  · refine jsSortBy_pairwise gtDesc (fun r => r.key ≠ JVal.nan)
      (fun a b pa pb => gtDesc_asym a b pa pb)
      (fun a b z pa pb pz => gtDesc_trans a b z pa pb pz) _ ?_
    intro r hr
    obtain ⟨c, hcf, rfl⟩ := List.mem_map.mp hr
    exact participantsOf_key_ne_nan rawData ft period c msgFNE
  · refine jsSortBy_pairwise gtAsc (fun r => r.key ≠ JVal.nan)
      (fun a b pa pb => gtAsc_asym a b pa pb)
      (fun a b z pa pb pz => gtAsc_trans a b z pa pb pz) _ ?_
    intro r hr
    obtain ⟨c, hcf, rfl⟩ := List.mem_map.mp hr
    exact bikOf_key_ne_nan rawData ft period c msgND

theorem tables_sorted_spec_witness :
    ((∀ c ∈ companiesOf dsPart "F", isEligibleOf dsPart "F" "YTD" c = true →
        (growthValOf dsPart "F" "YTD" c).isSome = true) ∧
      (∀ c ∈ companiesOf dsPart "F", isEligibleOf dsPart "F" "YTD" c = true →
        (avgValOf dsPart "F" "YTD" c).isSome = true)) ∧
    TablesSortedSpec dsPart "F" "YTD" "FNE" "ND" := by
  have hcomp : companiesOf dsPart "F" = ["A"] := by decide
  have ha : ∀ c ∈ companiesOf dsPart "F", isEligibleOf dsPart "F" "YTD" c = true →
      (avgValOf dsPart "F" "YTD" c).isSome = true := by
    intro c hcm _
    rw [hcomp] at hcm
    simp only [List.mem_singleton] at hcm
    subst hcm
    have h0 : relChangesOf dsPart "F" "YTD" "A" = [some 1] := by decide
    have hcast : ((1 : ℚ) : ℝ) = 1 := by norm_num
    have hg1 : geometricCumulativeGrowth [some ((1 : ℚ) : ℝ)] = some 1 := by
      rw [hcast]
      exact growth_single 1 1 (by norm_num)
    have h2 := annualised_eq [some ((1 : ℚ) : ℝ)] 1 hg1 (by norm_num)
    rw [avgValOf, h0]
    show (annualisedYearlyReturn [some ((1 : ℚ) : ℝ)]).isSome = true
    rw [h2]
    rfl
  have hgrow : ∀ c ∈ companiesOf dsPart "F", isEligibleOf dsPart "F" "YTD" c = true →
      (growthValOf dsPart "F" "YTD" c).isSome = true := by
    intro c hcm _
    rw [hcomp] at hcm
    simp only [List.mem_singleton] at hcm
    subst hcm
    decide
  exact ⟨⟨hgrow, ha⟩, tables_sorted_spec dsPart "F" "YTD" "FNE" "ND" hgrow ha⟩

/-- Three managers under one fund type observed on the same day; manager B
reports a null quarterly change, so its growth and annualised values are the
NaN sentinel while it stays eligible. -/
def dsNan : List Obs :=
  [⟨0, "F", "A", some 5, some 100, some 1⟩,
   ⟨0, "F", "B", none, some 50, some 2⟩,
   ⟨0, "F", "C", some 7, some 200, some 3⟩]

lemma dsNan_growthA : growthValOf dsNan "F" "YTD" "A" = some 5 := by
  have h0 : relChangesOf dsNan "F" "YTD" "A" = [some 5] := by decide
  rw [growthValOf, h0]
  exact growth_single 5 5 (by norm_num)

lemma dsNan_growthB : growthValOf dsNan "F" "YTD" "B" = none := by
  have h0 : relChangesOf dsNan "F" "YTD" "B" = [none] := by decide
  rw [growthValOf, h0]
  rfl

lemma dsNan_growthC : growthValOf dsNan "F" "YTD" "C" = some 7 := by
  have h0 : relChangesOf dsNan "F" "YTD" "C" = [some 7] := by decide
  rw [growthValOf, h0]
  exact growth_single 7 7 (by norm_num)

lemma dsNan_eligible :
    (companiesOf dsNan "F").filter (fun c => isEligibleOf dsNan "F" "YTD" c) =
      ["A", "B", "C"] := by decide

lemma dsNan_growthNumeric :
    growthNumericOf dsNan "F" "YTD" "FNE" =
      [⟨"A", fmtSigned (some (5 : ℚ)) 2 "FNE", JVal.num 5⟩,
       ⟨"B", "FNE", JVal.nan⟩,
       ⟨"C", fmtSigned (some (7 : ℚ)) 2 "FNE", JVal.num 7⟩] := by
  rw [growthNumericOf, dsNan_eligible]
  simp only [List.map_cons, List.map_nil, dsNan_growthA, dsNan_growthB, dsNan_growthC]
  rfl

lemma dsNan_growthSorted :
    growthSortedOf dsNan "F" "YTD" "FNE" =
      [⟨"A", fmtSigned (some (5 : ℚ)) 2 "FNE", JVal.num 5⟩,
       ⟨"B", "FNE", JVal.nan⟩,
       ⟨"C", fmtSigned (some (7 : ℚ)) 2 "FNE", JVal.num 7⟩] := by
  rw [growthSortedOf, dsNan_growthNumeric]
  rfl

/-- C9 counterexample: with an eligible all-null manager B between A and C,
the growth table's numeric partition sorts to keys [5, NaN, 7] — the NaN key
compares as a tie with everything, so the 5-row stays ahead of the 7-row and
the claimed descending order fails. -/
theorem growth_order_nan_cex :
    (growthSortedOf dsNan "F" "YTD" "FNE").map KRow.key =
      [JVal.num (5 : ℚ), JVal.nan, JVal.num 7] ∧
    ¬ (growthSortedOf dsNan "F" "YTD" "FNE").Pairwise
        (fun a b => gtDesc a b = false) := by
  constructor
  · rw [dsNan_growthSorted]
    rfl
  · rw [dsNan_growthSorted]
    intro hpw
    have h1 := (List.pairwise_cons.mp hpw).1
      ⟨"C", fmtSigned (some (7 : ℚ)) 2 "FNE", JVal.num 7⟩ (by simp)
    simp only [gtDesc, jsub, jposB, decide_eq_false_iff_not, not_lt] at h1
    norm_num at h1

/-- C10: manager B is eligible but all its window changes are null, so its
growth and annualised rows sit in the numeric partition with a NaN sort key
while displaying the placeholder text, and they appear between the numeric
rows of A and C rather than after them. -/
theorem nan_key_in_numeric_partition :
    isEligibleOf dsNan "F" "YTD" "B" = true ∧
    growthValOf dsNan "F" "YTD" "B" = none ∧
    ((⟨"B", "FNE", JVal.nan⟩ : KRow (JVal ℚ) String) ∈
      growthNumericOf dsNan "F" "YTD" "FNE") ∧
    (growthRowsOf dsNan "F" "YTD" "FNE").map Prod.fst = ["A", "B", "C"] ∧
    (growthRowsOf dsNan "F" "YTD" "FNE").get? 1 = some ("B", "FNE") ∧
    (∃ row ∈ avgNumericOf dsNan "F" "YTD" "FNE",
      row.company = "B" ∧ row.key = JVal.nan ∧ row.cells = "FNE") ∧
    (avgSortedOf dsNan "F" "YTD" "FNE").map KRow.company = ["A", "B", "C"] := by
  have hnodata : growthNoDataOf dsNan "F" "YTD" "FNE" = [] := by decide
  have havB : avgValOf dsNan "F" "YTD" "B" = none := by
    have h0 : relChangesOf dsNan "F" "YTD" "B" = [none] := by decide
    rw [avgValOf, h0]
    rfl
  have havA : ∃ v, avgValOf dsNan "F" "YTD" "A" = some v := by
    have h0 : relChangesOf dsNan "F" "YTD" "A" = [some 5] := by decide
    have hcast : ((5 : ℚ) : ℝ) = 5 := by norm_num
    have hg5 : geometricCumulativeGrowth [some ((5 : ℚ) : ℝ)] = some 5 := by
      rw [hcast]
      exact growth_single 5 5 (by norm_num)
    have h2 := annualised_eq [some ((5 : ℚ) : ℝ)] 5 hg5 (by norm_num)
    exact ⟨_, by rw [avgValOf, h0]; exact h2⟩
  have havC : ∃ v, avgValOf dsNan "F" "YTD" "C" = some v := by
    have h0 : relChangesOf dsNan "F" "YTD" "C" = [some 7] := by decide
    have hcast : ((7 : ℚ) : ℝ) = 7 := by norm_num
    have hg7 : geometricCumulativeGrowth [some ((7 : ℚ) : ℝ)] = some 7 := by
      rw [hcast]
      exact growth_single 7 7 (by norm_num)
    have h2 := annualised_eq [some ((7 : ℚ) : ℝ)] 7 hg7 (by norm_num)
    exact ⟨_, by rw [avgValOf, h0]; exact h2⟩
  obtain ⟨vA, hvA⟩ := havA
  obtain ⟨vC, hvC⟩ := havC
  have havnum : avgNumericOf dsNan "F" "YTD" "FNE" =
      [⟨"A", fmtSigned (some vA) 2 "FNE", JVal.num vA⟩,
       ⟨"B", "FNE", JVal.nan⟩,
       ⟨"C", fmtSigned (some vC) 2 "FNE", JVal.num vC⟩] := by
    rw [avgNumericOf, dsNan_eligible]
    simp only [List.map_cons, List.map_nil, hvA, havB, hvC]
    rfl
  have havsort : avgSortedOf dsNan "F" "YTD" "FNE" =
      [⟨"A", fmtSigned (some vA) 2 "FNE", JVal.num vA⟩,
       ⟨"B", "FNE", JVal.nan⟩,
       ⟨"C", fmtSigned (some vC) 2 "FNE", JVal.num vC⟩] := by
    rw [avgSortedOf, havnum]
    rfl
  refine ⟨by decide, dsNan_growthB, ?_, ?_, ?_, ?_, ?_⟩
  · rw [dsNan_growthNumeric]
    simp
  · rw [growthRowsOf, dsNan_growthSorted, hnodata]
    rfl
  · rw [growthRowsOf, dsNan_growthSorted, hnodata]
    rfl
  · exact ⟨⟨"B", "FNE", JVal.nan⟩, by rw [havnum]; simp, rfl, rfl, rfl⟩
  · rw [havsort]
    rfl

end PensionFundLt
